import Mathlib

/-!
# Verification of the loco_math scalar kernel layer

A shallow embedding of the scalar vector/matrix kernels of the loco_math
library (vec4_t_scalar_impl.hpp, the vec2 scalar kernel file, and the
Matrix4 dispatch/operator layer mat4_t_impl.hpp), together with proofs of
the specified properties.

Floating-point values are modelled as exact rationals extended with the
IEEE-754 special values: signed infinity and NaN.  Arithmetic on finite
values is exact (no rounding), while the propagation rules for the special
values follow IEEE-754 semantics: this captures precisely the edge cases
the specification talks about (division by zero producing NaN/Inf, NaN
being unordered under every comparison).
-/

namespace LocoMath

/-- An IEEE-754-style scalar value: an exact finite rational, a signed
infinity (`inf true` is `+∞`, `inf false` is `-∞`), or NaN. -/
inductive FP where
  | finite : ℚ → FP
  | inf : Bool → FP
  | nan : FP
deriving DecidableEq

/-- True exactly on finite values (neither an infinity nor NaN). -/
def FP.isFinite : FP → Bool
  | .finite _ => true
  | _ => false

/-- IEEE addition on the extended values; finite arithmetic is exact. -/
def fpAdd : FP → FP → FP
  | .nan, _ => .nan
  | _, .nan => .nan
  | .finite a, .finite b => .finite (a + b)
  | .finite _, .inf s => .inf s
  | .inf s, .finite _ => .inf s
  | .inf s, .inf t => if s = t then .inf s else .nan

/-- IEEE subtraction on the extended values; finite arithmetic is exact. -/
def fpSub : FP → FP → FP
  | .nan, _ => .nan
  | _, .nan => .nan
  | .finite a, .finite b => .finite (a - b)
  | .finite _, .inf s => .inf (!s)
  | .inf s, .finite _ => .inf s
  | .inf s, .inf t => if s = t then .nan else .inf s

/-- IEEE multiplication on the extended values; `0 * ∞ = NaN`. -/
def fpMul : FP → FP → FP
  | .nan, _ => .nan
  | _, .nan => .nan
  | .finite a, .finite b => .finite (a * b)
  | .finite a, .inf s => if a = 0 then .nan else .inf (decide (0 < a) = s)
  | .inf s, .finite a => if a = 0 then .nan else .inf (decide (0 < a) = s)
  | .inf s, .inf t => .inf (s = t)

/-- IEEE division on the extended values; `0/0 = NaN`, `x/0 = ±∞` for
finite nonzero `x`, `∞/∞ = NaN`, finite over infinite is `0`. -/
def fpDiv : FP → FP → FP
  | .nan, _ => .nan
  | _, .nan => .nan
  | .finite a, .finite b =>
      if b = 0 then (if a = 0 then .nan else .inf (decide (0 < a)))
      else .finite (a / b)
  | .inf s, .finite b => .inf (if 0 ≤ b then s else !s)
  | .finite _, .inf _ => .finite 0
  | .inf _, .inf _ => .nan

/-- IEEE absolute value; `|NaN| = NaN`, `|±∞| = +∞`. -/
def fpAbs : FP → FP
  | .nan => .nan
  | .inf _ => .inf true
  | .finite a => .finite |a|

/-- The IEEE `<` comparison: false whenever either operand is NaN. -/
def fpLt : FP → FP → Bool
  | .nan, _ => false
  | _, .nan => false
  | .finite a, .finite b => decide (a < b)
  | .finite _, .inf s => s
  | .inf s, .finite _ => !s
  | .inf s, .inf t => !s && t

/-- The IEEE `>=` comparison: false whenever either operand is NaN. -/
def fpGe : FP → FP → Bool
  | .nan, _ => false
  | _, .nan => false
  | .finite a, .finite b => decide (b ≤ a)
  | .finite _, .inf s => !s
  | .inf s, .finite _ => s
  | .inf s, .inf t => s || !t

/-- Modelled from the spec: the library-wide epsilon constant `math::EPS`
(its defining header is not among the sources).  The spec describes it as
"a fixed small tolerance (shared across the library, same nominal value
regardless of `T`'s precision)"; the concrete value only needs to be a
small positive rational. -/
def EPS : ℚ := 1 / 1000000

/-- The epsilon constant injected into the extended value type, as the
comparison kernels consume it (`static_cast<T>(math::EPS)`). -/
def fpEPS : FP := .finite EPS

/-- The loop-body test of every `compare_eq` kernel: the source returns
`false` as soon as `std::abs(lhs[i] - rhs[i]) >= EPS` holds, so a
component pair passes exactly when that IEEE comparison is false. -/
def fpWithin (a b : FP) : Bool := !(fpGe (fpAbs (fpSub a b)) fpEPS)

/-- A `Vector4<T>` element buffer: four contiguous scalars. -/
def Vec4 : Type := Fin 4 → FP

/-- A `Vector2<T>` element buffer: two contiguous scalars. -/
def Vec2 : Type := Fin 2 → FP

/-- The kernel `scalar::kernel_scale_vec4`: `dst[i] = scale * vec[i]` for each of the
four components. -/
def kernel_scale_vec4 (scale : FP) (vec : Vec4) : Vec4 :=
  fun i => fpMul scale (vec i)

/-- The kernel `scalar::kernel_length_square_vec4`: accumulate `vec[i] * vec[i]`
starting from `0`, in index order. -/
def kernel_length_square_vec4 (vec : Vec4) : FP :=
  fpAdd (fpAdd (fpAdd (fpAdd (.finite 0)
    (fpMul (vec 0) (vec 0)))
    (fpMul (vec 1) (vec 1)))
    (fpMul (vec 2) (vec 2)))
    (fpMul (vec 3) (vec 3))

/-- The kernel `scalar::kernel_normalize_in_place_vec4`: divide every component by
`sqrt(length_square(vec))`.  The square root on the extended values is not
algebraic over ℚ, so it is taken as a parameter; each claim constrains it
only at the points the IEEE standard fixes (e.g. `sqrt 0 = 0`). -/
def kernel_normalize_in_place_vec4 (sqrtFn : FP → FP) (vec : Vec4) : Vec4 :=
  let length := sqrtFn (kernel_length_square_vec4 vec)
  fun i => fpDiv (vec i) length

/-- The kernel `scalar::kernel_dot_vec4`: accumulate `lhs[i] * rhs[i]` starting from
`0`, in index order. -/
def kernel_dot_vec4 (lhs rhs : Vec4) : FP :=
  fpAdd (fpAdd (fpAdd (fpAdd (.finite 0)
    (fpMul (lhs 0) (rhs 0)))
    (fpMul (lhs 1) (rhs 1)))
    (fpMul (lhs 2) (rhs 2)))
    (fpMul (lhs 3) (rhs 3))

/-- The kernel `scalar::kernel_compare_eq_vec4`: return `false` at the first
component with `|lhs[i] - rhs[i]| >= EPS`, else `true`; the `&&` chain
mirrors the loop's early return. -/
def kernel_compare_eq_vec4 (lhs rhs : Vec4) : Bool :=
  fpWithin (lhs 0) (rhs 0) &&
  (fpWithin (lhs 1) (rhs 1) &&
  (fpWithin (lhs 2) (rhs 2) &&
  fpWithin (lhs 3) (rhs 3)))

/-- The kernel `scalar::kernel_scale_vec2`: `dst[i] = scale * vec[i]` for both
components. -/
def kernel_scale_vec2 (scale : FP) (vec : Vec2) : Vec2 :=
  fun i => fpMul scale (vec i)

/-- The kernel `scalar::kernel_dot_vec2`: accumulate `lhs[i] * rhs[i]` starting from
`0`, in index order. -/
def kernel_dot_vec2 (lhs rhs : Vec2) : FP :=
  fpAdd (fpAdd (.finite 0)
    (fpMul (lhs 0) (rhs 0)))
    (fpMul (lhs 1) (rhs 1))

/-- The kernel `scalar::kernel_compare_eq_vec2`: return `false` at the first
component with `|lhs[i] - rhs[i]| >= EPS`, else `true`. -/
def kernel_compare_eq_vec2 (lhs rhs : Vec2) : Bool :=
  fpWithin (lhs 0) (rhs 0) && fpWithin (lhs 1) (rhs 1)

/-- Every component pair within tolerance of itself: for a finite value the
difference is exactly `0 < EPS`; for `±∞` and NaN the difference is NaN and
the IEEE `>=` test is false, so the early-return branch is never taken. -/
theorem fpWithin_self (a : FP) : fpWithin a a = true := by
  cases a <;> simp [fpWithin, fpSub, fpAbs, fpGe, fpEPS, EPS]

/-- Multiplication on the extended values is commutative. -/
theorem fpMul_comm (a b : FP) : fpMul a b = fpMul b a := by
  cases a <;> cases b <;> simp [fpMul, mul_comm, eq_comm]

/-- A `Matrix4<T>` element buffer: 16 contiguous scalars in column-major
order (element `(row, col)` lives at buffer offset `col*4 + row`). -/
def Mat4 : Type := Fin 16 → FP

/-- The `Matrix4` `(row, col)` accessor over the column-major buffer. -/
def mat4_at (m : Mat4) (row col : Fin 4) : FP :=
  m ⟨col.val * 4 + row.val, by omega⟩

/-- Generic componentwise tolerance comparison over an `n`-element buffer
with a given epsilon: true when no component pair is at or beyond the
tolerance. -/
def compare_eq_gen (n : ℕ) (eps : FP) (lhs rhs : Fin n → FP) : Bool :=
  (List.finRange n).all fun i => !(fpGe (fpAbs (fpSub (lhs i) (rhs i))) eps)

/-- Modelled from the spec: `scalar::kernel_compare_eq_mat4` (the file
`mat4_t_scalar_impl.hpp` is not among the sources).  Per the spec every
approximate-equality kernel returns true only when every component pair
differs by strictly less than the shared epsilon constant, over the 16
buffer elements. -/
def kernel_compare_eq_mat4 (lhs rhs : Mat4) : Bool :=
  compare_eq_gen 16 fpEPS lhs rhs

/-- The build configuration selected at compile time by the
`LOCOMATH_AVX_ENABLED` / `LOCOMATH_SSE_ENABLED` preprocessor flags. -/
inductive Backend where
  | avx
  | sse
  | scalar
deriving DecidableEq

/-- The operator `loco::math::operator==(Matrix4, Matrix4)`: the body has no
backend conditional and always calls `scalar::kernel_compare_eq_mat4`;
the build configuration is carried as a parameter to make that explicit. -/
def mat4_eq (_cfg : Backend) (lhs rhs : Mat4) : Bool :=
  kernel_compare_eq_mat4 lhs rhs

/-- The operator `loco::math::operator!=(Matrix4, Matrix4)`: negation of the scalar
comparison kernel, also with no backend conditional. -/
def mat4_ne (_cfg : Backend) (lhs rhs : Mat4) : Bool :=
  !(kernel_compare_eq_mat4 lhs rhs)

/-- The three scale-kernel implementations
(`avx/sse/scalar::kernel_scale_mat4`); the SIMD implementation files are
not among the sources, so the kernels are left abstract — the dispatch
claims hold for every choice of implementations. -/
structure ScaleKernels where
  avxK : FP → Mat4 → Mat4
  sseK : FP → Mat4 → Mat4
  scalarK : FP → Mat4 → Mat4

/-- The operator `loco::math::operator*(double, Matrix4)`: dispatch on the build
configuration, passing `static_cast<T>(scale)` (the `castT` parameter) and
the matrix buffer to the selected scale kernel. -/
def mat4_scalar_mul_left (ks : ScaleKernels) (castT : FP → FP)
    (cfg : Backend) (scale : FP) (mat : Mat4) : Mat4 :=
  match cfg with
  | .avx => ks.avxK (castT scale) mat
  | .sse => ks.sseK (castT scale) mat
  | .scalar => ks.scalarK (castT scale) mat

/-- The operator `loco::math::operator*(Matrix4, double)`: same dispatch, same kernel
arguments, operand order flipped in the signature only. -/
def mat4_scalar_mul_right (ks : ScaleKernels) (castT : FP → FP)
    (cfg : Backend) (mat : Mat4) (scale : FP) : Mat4 :=
  match cfg with
  | .avx => ks.avxK (castT scale) mat
  | .sse => ks.sseK (castT scale) mat
  | .scalar => ks.scalarK (castT scale) mat

/-- Stream extraction of `n` scalar values from a token stream: each token
either parses to a value (`some v`) or fails (`none`); extraction fails as
soon as a token fails to parse or the stream runs out, mirroring the
sticky fail state of `std::istream`. -/
def readN : ℕ → List (Option FP) → Option (List FP)
  | 0, _ => some []
  | _ + 1, [] => none
  | n + 1, t :: rest =>
      match t with
      | none => none
      | some v => (readN n rest).map fun vs => v :: vs

/-- The write-back phase of `operator>>(std::istream, Matrix4)`: sets
`dst(r, c) = vals[r*4 + c]` for every row and column (row-major reading
order), expressed over the column-major buffer.  Buffer offset `j` holds
`(row, col) = (j % 4, j / 4)`, hence the value `vals[(j % 4) * 4 + j / 4]`. -/
def mat4_writeback (vals : List FP) (dst : Mat4) : Mat4 :=
  fun j => vals.getD ((j.val % 4) * 4 + j.val / 4) (dst j)

/-- The operator `loco::math::operator>>(std::istream, Matrix4)`: extract 16 tokens;
only when none of the extractions failed are the 16 values written into
the destination.  Returns the resulting matrix and the success flag
(`true` when `!input_stream.fail()`). -/
def mat4_stream_extract (stream : List (Option FP)) (dst : Mat4) :
    Mat4 × Bool :=
  match readN 16 stream with
  | none => (dst, false)
  | some vals => (mat4_writeback vals dst, true)

/-- The row a row-major token index lands in: `k / 4`. -/
def rowOf (k : Fin 16) : Fin 4 := ⟨k.val / 4, by omega⟩

/-- The column a row-major token index lands in: `k % 4`. -/
def colOf (k : Fin 16) : Fin 4 := ⟨k.val % 4, by omega⟩

/-- Successful `readN` returns exactly as many values as requested. -/
theorem readN_length :
    ∀ (n : ℕ) (s : List (Option FP)) (vs : List FP),
      readN n s = some vs → vs.length = n := by
  intro n
  induction n with
  | zero =>
      intro s vs h
      simp [readN] at h
      simp [← h]
  | succ m ih =>
      intro s vs h
      cases s with
      | nil => simp [readN] at h
      | cons t rest =>
          cases t with
          | none => simp [readN] at h
          | some v =>
              cases hws : readN m rest with
              | none => simp [readN, hws] at h
              | some ws =>
                  simp [readN, hws] at h
                  simp [← h, ih rest ws hws]

/-- A finite extended value is a rational wrapped in `FP.finite`. -/
theorem isFinite_exists {x : FP} (h : x.isFinite = true) :
    ∃ q, x = FP.finite q := by
  cases x with
  | finite q => exact ⟨q, rfl⟩
  | inf s => simp [FP.isFinite] at h
  | nan => simp [FP.isFinite] at h

/-- The sum of finite values is finite (exact rational arithmetic never
overflows in the model). -/
theorem fpAdd_finite {a b : FP} (ha : a.isFinite = true)
    (hb : b.isFinite = true) : (fpAdd a b).isFinite = true := by
  cases a <;> cases b <;> simp_all [FP.isFinite, fpAdd]

/-- The product of finite values is finite. -/
theorem fpMul_finite {a b : FP} (ha : a.isFinite = true)
    (hb : b.isFinite = true) : (fpMul a b).isFinite = true := by
  cases a <;> cases b <;> simp_all [FP.isFinite, fpMul]

/-- Subtracting a finite value from itself gives exactly zero. -/
theorem fpSub_self_of_finite {x : FP} (h : x.isFinite = true) :
    fpSub x x = FP.finite 0 := by
  obtain ⟨q, rfl⟩ := isFinite_exists h
  simp [fpSub]

/-- The dot kernel on all-finite vec4 buffers yields a finite value. -/
theorem kernel_dot_vec4_finite {a b : Vec4}
    (ha : ∀ i, (a i).isFinite = true) (hb : ∀ i, (b i).isFinite = true) :
    (kernel_dot_vec4 a b).isFinite = true :=
  fpAdd_finite (fpAdd_finite (fpAdd_finite (fpAdd_finite rfl
    (fpMul_finite (ha 0) (hb 0)))
    (fpMul_finite (ha 1) (hb 1)))
    (fpMul_finite (ha 2) (hb 2)))
    (fpMul_finite (ha 3) (hb 3))

/-- The dot kernel on all-finite vec2 buffers yields a finite value. -/
theorem kernel_dot_vec2_finite {a b : Vec2}
    (ha : ∀ i, (a i).isFinite = true) (hb : ∀ i, (b i).isFinite = true) :
    (kernel_dot_vec2 a b).isFinite = true :=
  fpAdd_finite (fpAdd_finite rfl
    (fpMul_finite (ha 0) (hb 0)))
    (fpMul_finite (ha 1) (hb 1))

/-- The vec4 dot kernel is commutative exactly (same accumulation order,
commuting only the componentwise products). -/
theorem kernel_dot_vec4_comm (a b : Vec4) :
    kernel_dot_vec4 a b = kernel_dot_vec4 b a := by
  unfold kernel_dot_vec4
  rw [fpMul_comm (a 0), fpMul_comm (a 1), fpMul_comm (a 2), fpMul_comm (a 3)]

/-- The vec2 dot kernel is commutative exactly. -/
theorem kernel_dot_vec2_comm (a b : Vec2) :
    kernel_dot_vec2 a b = kernel_dot_vec2 b a := by
  unfold kernel_dot_vec2
  rw [fpMul_comm (a 0), fpMul_comm (a 1)]

/-- Exactly zero is within the epsilon tolerance. -/
theorem fpLt_abs_zero_eps : fpLt (fpAbs (FP.finite 0)) fpEPS = true := by
  simp [fpAbs, fpLt, fpEPS, EPS]

/-- The all-zero vec4 buffer. -/
def vec4Zero : Vec4 := fun _ => FP.finite 0

/-- The all-zero vec2 buffer. -/
def vec2Zero : Vec2 := fun _ => FP.finite 0

/-- C6: `kernel_length_square_vec4 v` is the very same computation as
`kernel_dot_vec4 v v` — same accumulation order from the additive
identity, hence bit-identical results for every input, non-finite values
included. -/
theorem C6_length_square_is_dot (v : Vec4) :
    kernel_length_square_vec4 v = kernel_dot_vec4 v v := rfl

/-- C9: the vec4 comparison kernel is reflexive with no finiteness
restriction: a finite self-difference is exactly zero, and a NaN or
infinite component yields a NaN difference, for which the IEEE `>=`
early-return test is false. -/
theorem C9_compare_eq_refl (x : Vec4) : kernel_compare_eq_vec4 x x = true := by
  simp [kernel_compare_eq_vec4, fpWithin_self]

/-- C5: in every build configuration `operator==`/`operator!=` on
`Matrix4` compute exactly the scalar comparison kernel applied to the two
element buffers (their bodies contain no backend conditional). -/
theorem C5_mat4_eq_uses_scalar_kernel (cfg : Backend) (lhs rhs : Mat4) :
    mat4_eq cfg lhs rhs = kernel_compare_eq_mat4 lhs rhs ∧
    mat4_ne cfg lhs rhs = !(kernel_compare_eq_mat4 lhs rhs) :=
  ⟨rfl, rfl⟩

/-- C10: `operator*(double, Matrix4)` and `operator*(Matrix4, double)`
produce identical results in every build configuration and for every
choice of the three scale-kernel implementations, since both dispatch to
the same kernel with the same cast scalar and matrix buffer. -/
theorem C10_scalar_mul_sides_agree (ks : ScaleKernels) (castT : FP → FP)
    (cfg : Backend) (s : FP) (M : Mat4) :
    mat4_scalar_mul_left ks castT cfg s M =
      mat4_scalar_mul_right ks castT cfg M s := by
  cases cfg <;> rfl

/-- C4: normalizing the all-zero vec4 in place divides every component by
`sqrt(0) = 0`, so each component becomes `0/0 = NaN` — a non-finite value
produced by IEEE division, not an error path.  The square root is
constrained only by the IEEE requirement `sqrt(+0) = +0`. -/
theorem C4_normalize_zero_vec (sqrtFn : FP → FP)
    (h : sqrtFn (FP.finite 0) = FP.finite 0) (i : Fin 4) :
    kernel_normalize_in_place_vec4 sqrtFn vec4Zero i = FP.nan ∧
    (kernel_normalize_in_place_vec4 sqrtFn vec4Zero i).isFinite = false := by
  have hls : kernel_length_square_vec4 vec4Zero = FP.finite 0 := by
    simp [kernel_length_square_vec4, vec4Zero, fpMul, fpAdd]
  constructor
  · simp [kernel_normalize_in_place_vec4, hls, h, vec4Zero, fpDiv]
  · simp [kernel_normalize_in_place_vec4, hls, h, vec4Zero, fpDiv, FP.isFinite]

/-- Witness for C4 at the identity as square-root function (which does map
`0` to `0`) and the first component. -/
theorem C4_witness :
    kernel_normalize_in_place_vec4 (fun x => x) vec4Zero 0 = FP.nan :=
  (C4_normalize_zero_vec (fun x => x) rfl 0).1

/-- C7: on all-finite inputs the dot kernels (vec4 and vec2) are
commutative, and the two results agree within the epsilon tolerance (they
are in fact exactly equal, so the difference is exactly zero). -/
theorem C7_dot_comm (a b : Vec4) (c d : Vec2)
    (ha : ∀ i, (a i).isFinite = true) (hb : ∀ i, (b i).isFinite = true)
    (hc : ∀ i, (c i).isFinite = true) (hd : ∀ i, (d i).isFinite = true) :
    fpLt (fpAbs (fpSub (kernel_dot_vec4 a b) (kernel_dot_vec4 b a)))
      fpEPS = true ∧
    fpLt (fpAbs (fpSub (kernel_dot_vec2 c d) (kernel_dot_vec2 d c)))
      fpEPS = true := by
  constructor
  · rw [kernel_dot_vec4_comm a b,
      fpSub_self_of_finite (kernel_dot_vec4_finite hb ha)]
    exact fpLt_abs_zero_eps
  · rw [kernel_dot_vec2_comm c d,
      fpSub_self_of_finite (kernel_dot_vec2_finite hd hc)]
    exact fpLt_abs_zero_eps

/-- Witness for C7 at concrete all-finite vectors. -/
theorem C7_witness :
    fpLt (fpAbs (fpSub
      (kernel_dot_vec4 (fun _ => FP.finite 2) (fun _ => FP.finite 3))
      (kernel_dot_vec4 (fun _ => FP.finite 3) (fun _ => FP.finite 2))))
      fpEPS = true ∧
    fpLt (fpAbs (fpSub
      (kernel_dot_vec2 (fun _ => FP.finite 5) (fun _ => FP.finite 7))
      (kernel_dot_vec2 (fun _ => FP.finite 7) (fun _ => FP.finite 5))))
      fpEPS = true :=
  C7_dot_comm (fun _ => FP.finite 2) (fun _ => FP.finite 3)
    (fun _ => FP.finite 5) (fun _ => FP.finite 7)
    (fun _ => rfl) (fun _ => rfl) (fun _ => rfl) (fun _ => rfl)

/-- C8: on all-finite input buffers, scaling by `0` yields a vector that
compares equal (within epsilon) to the all-zero vector, and scaling by `1`
yields a vector that compares equal to the input — for both the vec4 and
the vec2 scale kernels. -/
theorem C8_scale_identities (a : Vec4) (b : Vec2)
    (ha : ∀ i, (a i).isFinite = true) (hb : ∀ i, (b i).isFinite = true) :
    kernel_compare_eq_vec4 (kernel_scale_vec4 (FP.finite 0) a) vec4Zero
      = true ∧
    kernel_compare_eq_vec4 (kernel_scale_vec4 (FP.finite 1) a) a = true ∧
    kernel_compare_eq_vec2 (kernel_scale_vec2 (FP.finite 0) b) vec2Zero
      = true ∧
    kernel_compare_eq_vec2 (kernel_scale_vec2 (FP.finite 1) b) b = true := by
  obtain ⟨qa0, ea0⟩ := isFinite_exists (ha 0)
  obtain ⟨qa1, ea1⟩ := isFinite_exists (ha 1)
  obtain ⟨qa2, ea2⟩ := isFinite_exists (ha 2)
  obtain ⟨qa3, ea3⟩ := isFinite_exists (ha 3)
  obtain ⟨qb0, eb0⟩ := isFinite_exists (hb 0)
  obtain ⟨qb1, eb1⟩ := isFinite_exists (hb 1)
  refine ⟨?_, ?_, ?_, ?_⟩ <;>
    simp [kernel_compare_eq_vec4, kernel_compare_eq_vec2, kernel_scale_vec4,
      kernel_scale_vec2, vec4Zero, vec2Zero, ea0, ea1, ea2, ea3, eb0, eb1,
      fpMul, fpWithin_self]

/-- Witness for C8 at concrete all-finite vectors. -/
theorem C8_witness :
    kernel_compare_eq_vec4
      (kernel_scale_vec4 (FP.finite 0) (fun _ => FP.finite 9)) vec4Zero
      = true ∧
    kernel_compare_eq_vec4
      (kernel_scale_vec4 (FP.finite 1) (fun _ => FP.finite 9))
      (fun _ => FP.finite 9) = true ∧
    kernel_compare_eq_vec2
      (kernel_scale_vec2 (FP.finite 0) (fun _ => FP.finite 4)) vec2Zero
      = true ∧
    kernel_compare_eq_vec2
      (kernel_scale_vec2 (FP.finite 1) (fun _ => FP.finite 4))
      (fun _ => FP.finite 4) = true :=
  C8_scale_identities (fun _ => FP.finite 9) (fun _ => FP.finite 4)
    (fun _ => rfl) (fun _ => rfl)

/-- A vec4 whose first component is NaN and whose others are zero. -/
def nanVec4 : Vec4 := fun i => if i = 0 then FP.nan else FP.finite 0

/-- C2 counterexample: on a vector with a NaN component, `compare_eq`
returns `true` against itself although the NaN component pair does not
satisfy `|lhs[i] - rhs[i]| < EPS` under the IEEE comparison — the kernel's
`>= EPS` early-return test is false on NaN, so NaN differences are treated
as within tolerance, refuting the claimed if-and-only-if. -/
theorem C2_counterexample :
    kernel_compare_eq_vec4 nanVec4 nanVec4 = true ∧
    ¬ (∀ i : Fin 4,
        fpLt (fpAbs (fpSub (nanVec4 i) (nanVec4 i))) fpEPS = true) := by
  constructor
  · simp [kernel_compare_eq_vec4, nanVec4, fpWithin_self]
  · intro hAll
    have h0 := hAll 0
    simp [nanVec4, fpSub, fpAbs, fpLt] at h0

/-- On finite component pairs the early-return test of `compare_eq` is
exactly the IEEE strictly-less comparison of the absolute difference
against epsilon. -/
theorem fpWithin_eq_lt_of_finite {x y : FP} (hx : x.isFinite = true)
    (hy : y.isFinite = true) :
    fpWithin x y = fpLt (fpAbs (fpSub x y)) fpEPS := by
  obtain ⟨a, rfl⟩ := isFinite_exists hx
  obtain ⟨b, rfl⟩ := isFinite_exists hy
  simp only [fpWithin, fpSub, fpAbs, fpGe, fpLt, fpEPS]
  rw [← decide_not]
  simp [not_le]

/-- C2 amended: for vectors whose components are all finite (so that no
component difference is NaN), `compare_eq` returns true if and only if
every component pair satisfies `|lhs[i] - rhs[i]| < EPS`, for both the
vec4 and the vec2 kernels. -/
theorem C2_compare_eq_iff (lhs rhs : Vec4) (l2 r2 : Vec2)
    (h1 : ∀ i, (lhs i).isFinite = true) (h2 : ∀ i, (rhs i).isFinite = true)
    (h3 : ∀ i, (l2 i).isFinite = true) (h4 : ∀ i, (r2 i).isFinite = true) :
    (kernel_compare_eq_vec4 lhs rhs = true ↔
      ∀ i, fpLt (fpAbs (fpSub (lhs i) (rhs i))) fpEPS = true) ∧
    (kernel_compare_eq_vec2 l2 r2 = true ↔
      ∀ i, fpLt (fpAbs (fpSub (l2 i) (r2 i))) fpEPS = true) := by
  constructor
  · unfold kernel_compare_eq_vec4
    rw [fpWithin_eq_lt_of_finite (h1 0) (h2 0),
      fpWithin_eq_lt_of_finite (h1 1) (h2 1),
      fpWithin_eq_lt_of_finite (h1 2) (h2 2),
      fpWithin_eq_lt_of_finite (h1 3) (h2 3)]
    simp only [Bool.and_eq_true]
    constructor
    · rintro ⟨p0, p1, p2, p3⟩ i
      fin_cases i <;> assumption
    · intro h
      exact ⟨h 0, h 1, h 2, h 3⟩
  · unfold kernel_compare_eq_vec2
    rw [fpWithin_eq_lt_of_finite (h3 0) (h4 0),
      fpWithin_eq_lt_of_finite (h3 1) (h4 1)]
    simp only [Bool.and_eq_true]
    constructor
    · rintro ⟨p0, p1⟩ i
      fin_cases i <;> assumption
    · intro h
      exact ⟨h 0, h 1⟩

/-- An all-ones vec4 buffer. -/
def vec4Ones : Vec4 := fun _ => FP.finite 1

/-- An all-ones vec2 buffer. -/
def vec2Ones : Vec2 := fun _ => FP.finite 1

/-- Witness for the amended C2 at concrete all-finite vectors. -/
theorem C2_witness :
    (kernel_compare_eq_vec4 vec4Zero vec4Ones = true ↔
      ∀ i, fpLt (fpAbs (fpSub (vec4Zero i) (vec4Ones i))) fpEPS = true) ∧
    (kernel_compare_eq_vec2 vec2Zero vec2Ones = true ↔
      ∀ i, fpLt (fpAbs (fpSub (vec2Zero i) (vec2Ones i))) fpEPS = true) :=
  C2_compare_eq_iff vec4Zero vec4Ones vec2Zero vec2Ones
    (fun _ => rfl) (fun _ => rfl) (fun _ => rfl) (fun _ => rfl)

/-- C3: all three approximate-equality kernels (vec4, vec2, mat4) compute
the generic componentwise comparison with the one shared epsilon constant
`fpEPS`. -/
theorem C3_shared_epsilon :
    (∀ lhs rhs : Vec4,
      kernel_compare_eq_vec4 lhs rhs = compare_eq_gen 4 fpEPS lhs rhs) ∧
    (∀ lhs rhs : Vec2,
      kernel_compare_eq_vec2 lhs rhs = compare_eq_gen 2 fpEPS lhs rhs) ∧
    (∀ lhs rhs : Mat4,
      kernel_compare_eq_mat4 lhs rhs = compare_eq_gen 16 fpEPS lhs rhs) := by
  refine ⟨fun lhs rhs => ?_, fun lhs rhs => ?_, fun lhs rhs => rfl⟩
  · unfold compare_eq_gen kernel_compare_eq_vec4 fpWithin
    rw [(by decide : List.finRange 4 = [0, 1, 2, 3])]
    simp
  · unfold compare_eq_gen kernel_compare_eq_vec2 fpWithin
    rw [(by decide : List.finRange 2 = [0, 1])]
    simp

/-- The value of `List.getD` does not depend on the default value at in-range
indices. -/
theorem getD_default_irrel (l : List FP) (n : ℕ) (d₁ d₂ : FP)
    (h : n < l.length) : l.getD n d₁ = l.getD n d₂ := by
  simp [List.getD, List.getElem?_eq_getElem h]

/-- C1: the `Matrix4` stream-extraction operator is fail-soft.  If the
extraction of any of the 16 tokens fails, the destination matrix is
returned entirely unchanged; the success flag is set exactly when all 16
tokens parse; and on success token `k` is stored at row `k / 4`, column
`k % 4` (row-major reading order). -/
theorem C1_stream_extract_fail_soft (stream : List (Option FP))
    (dst : Mat4) :
    ((mat4_stream_extract stream dst).2 = false →
      (mat4_stream_extract stream dst).1 = dst) ∧
    ((mat4_stream_extract stream dst).2 = true ↔
      (readN 16 stream).isSome = true) ∧
    (∀ vals : List FP, readN 16 stream = some vals →
      ∀ k : Fin 16,
        mat4_at (mat4_stream_extract stream dst).1 (rowOf k) (colOf k) =
          vals.getD k.val FP.nan) := by
  cases h : readN 16 stream with
  | none =>
      refine ⟨fun _ => ?_, ?_, ?_⟩
      · simp [mat4_stream_extract, h]
      · simp [mat4_stream_extract, h]
      · intro vals hv
        exact absurd hv (by simp)
  | some vals =>
      have hlen : vals.length = 16 := readN_length 16 stream vals h
      refine ⟨fun hf => ?_, ?_, ?_⟩
      · simp [mat4_stream_extract, h] at hf
      · simp [mat4_stream_extract, h]
      · intro vals' hv k
        injection hv with hv
        subst hv
        have hk16 : k.val < 16 := k.isLt
        have hk : k.val < vals.length := by omega
        have hidx : (k.val % 4 * 4 + k.val / 4) % 4 * 4 +
            (k.val % 4 * 4 + k.val / 4) / 4 = k.val := by omega
        simp only [mat4_stream_extract, h, mat4_at, mat4_writeback,
          rowOf, colOf]
        rw [hidx]
        exact getD_default_irrel vals k.val _ _ hk

/-- The all-zero Matrix4 element buffer. -/
def mat4ZeroBuf : Mat4 := fun _ => FP.finite 0

/-- A well-formed token stream of the 16 values `1 .. 16`. -/
def goodStream : List (Option FP) :=
  [some (.finite 1), some (.finite 2), some (.finite 3), some (.finite 4),
   some (.finite 5), some (.finite 6), some (.finite 7), some (.finite 8),
   some (.finite 9), some (.finite 10), some (.finite 11), some (.finite 12),
   some (.finite 13), some (.finite 14), some (.finite 15),
   some (.finite 16)]

/-- The 16 values carried by `goodStream`. -/
def goodVals : List FP :=
  [.finite 1, .finite 2, .finite 3, .finite 4,
   .finite 5, .finite 6, .finite 7, .finite 8,
   .finite 9, .finite 10, .finite 11, .finite 12,
   .finite 13, .finite 14, .finite 15, .finite 16]

/-- A token stream whose second token fails to parse. -/
def badStream : List (Option FP) :=
  [some (.finite 1), none, some (.finite 3)]

/-- Witness for C1: a failing stream leaves a concrete destination
untouched, and on the well-formed stream token 6 lands at row 1,
column 2. -/
theorem C1_witness :
    (mat4_stream_extract badStream mat4ZeroBuf).1 = mat4ZeroBuf ∧
    mat4_at (mat4_stream_extract goodStream mat4ZeroBuf).1
      (rowOf 6) (colOf 6) = FP.finite 7 := by
  constructor
  · exact (C1_stream_extract_fail_soft badStream mat4ZeroBuf).1 rfl
  · have h :=
      (C1_stream_extract_fail_soft goodStream mat4ZeroBuf).2.2 goodVals rfl 6
    simpa [goodVals] using h

end LocoMath
